import Mathlib

/-!
Verification of the Twilio↔OpenAI realtime call-relay application.

The development shallowly embeds the two Python source files
(`main.py` and `src/main.py`, a near-duplicate minimal variant) of the
repository: the closing-phrase detector `is_goodbye_trigger`, the
base64 transcoding done on audio deltas, the two relay pumps
(`recv_twilio`, telephony→AI, and `send_twilio`, AI→telephony) as step
functions folded over event lists, the `session.update` handshake, and
the `call_sid_cache` registry with its fallback resolution.
-/

/-- Python strings are modelled as lists of characters. -/
abbrev Str := List Char

/-- ASCII lowering of one character, as Python `str.lower` acts on ASCII. -/
def lowerChar (c : Char) : Char :=
  if 65 ≤ c.toNat ∧ c.toNat ≤ 90 then Char.ofNat (c.toNat + 32) else c

/-- `text.lower()`. -/
def lowerStr (s : Str) : Str := s.map lowerChar

/-- Characters stripped by Python `str.strip()`. -/
def isPySpace (c : Char) : Bool :=
  c == ' ' || c == '\t' || c == '\n' || c.toNat == 13 || c.toNat == 11 || c.toNat == 12

/-- `text.strip()`: drop leading and trailing whitespace. -/
def trimStr (s : Str) : Str :=
  ((s.dropWhile isPySpace).reverse.dropWhile isPySpace).reverse

/-- `startsWithStr n h` holds when `h` begins with `n`. -/
def startsWithStr : Str → Str → Bool
  | [], _ => true
  | _ :: _, [] => false
  | a :: as, b :: bs => a == b && startsWithStr as bs

/-- Python substring containment `n in h`. -/
def isSubstr (n : Str) : Str → Bool
  | [] => n.isEmpty
  | c :: t => startsWithStr n (c :: t) || isSubstr n t

/-- Specification-side substring relation: `n` occurs contiguously inside `h`. -/
def SubstrOf (n h : Str) : Prop := ∃ pre post, h = pre ++ n ++ post

theorem startsWithStr_iff (n : Str) : ∀ h : Str,
    startsWithStr n h = true ↔ ∃ t, h = n ++ t := by
  induction n with
  | nil =>
    intro h
    simp [startsWithStr]
  | cons a as ih =>
    intro h
    cases h with
    | nil =>
      simp [startsWithStr]
    | cons b bs =>
      simp only [startsWithStr, Bool.and_eq_true, beq_iff_eq, ih]
      constructor
      · rintro ⟨rfl, t, rfl⟩
        exact ⟨t, rfl⟩
      · rintro ⟨t, ht⟩
        injection ht with h1 h2
        exact ⟨h1.symm, t, h2⟩

theorem isSubstr_iff (n : Str) : ∀ h : Str, isSubstr n h = true ↔ SubstrOf n h := by
  intro h
  induction h with
  | nil =>
    cases n with
    | nil => exact ⟨fun _ => ⟨[], [], rfl⟩, fun _ => rfl⟩
    | cons c cs =>
      simp only [isSubstr, List.isEmpty, SubstrOf]
      constructor
      · intro hfalse
        cases hfalse
      · rintro ⟨pre, post, hp⟩
        exact absurd hp.symm (by simp)
  | cons c t ih =>
    simp only [isSubstr, Bool.or_eq_true, startsWithStr_iff, ih, SubstrOf]
    constructor
    · rintro (⟨tl, htl⟩ | ⟨pre, post, hp⟩)
      · exact ⟨[], tl, by simpa using htl⟩
      · exact ⟨c :: pre, post, by simp [hp]⟩
    · rintro ⟨pre, post, hp⟩
      cases pre with
      | nil =>
        exact Or.inl ⟨post, by simpa using hp⟩
      | cons p ps =>
        injection hp with h1 h2
        exact Or.inr ⟨ps, post, h2⟩

/-- The `GOODBYE_TRIGGERS` list from `send_twilio` in `main.py`. -/
def GOODBYE_TRIGGERS : List Str :=
  [ ("thank you bye have a great day").data
  , ("thank you and goodbye").data
  , ("goodbye have a nice day").data
  , ("thank you have a great day").data
  , ("have a great day").data
  , ("talk to you later").data
  , ("take care").data
  , ("goodbye").data ]

/-- `is_goodbye_trigger` from `main.py`: normalize (lowercase, strip) and
test whether any trigger phrase occurs as a substring. -/
def is_goodbye_trigger (text : Str) : Bool :=
  let normalized := trimStr (lowerStr text)
  GOODBYE_TRIGGERS.any (fun trigger => isSubstr trigger normalized)

example : is_goodbye_trigger ("Well, THANK YOU AND GOODBYE now").data = true := by decide
example : is_goodbye_trigger ("see you tomorrow").data = false := by decide

/-! ### Base64, as used by `base64.b64decode` / `base64.b64encode` on audio deltas -/

/-- Standard base64 alphabet: index `n < 64` to its character. -/
def sextetChar (n : Nat) : Char :=
  if n < 26 then Char.ofNat (65 + n)
  else if n < 52 then Char.ofNat (97 + (n - 26))
  else if n < 62 then Char.ofNat (48 + (n - 52))
  else if n = 62 then '+'
  else '/'

/-- Standard base64 alphabet: character to its index (0 for foreign characters). -/
def charSextet (c : Char) : Nat :=
  if 65 ≤ c.toNat ∧ c.toNat ≤ 90 then c.toNat - 65
  else if 97 ≤ c.toNat ∧ c.toNat ≤ 122 then c.toNat - 97 + 26
  else if 48 ≤ c.toNat ∧ c.toNat ≤ 57 then c.toNat - 48 + 52
  else if c = '+' then 62
  else if c = '/' then 63
  else 0

/-- `base64.b64encode`: bytes to base64 text, three bytes per four characters,
padded with `=`. -/
def b64encode : List Nat → Str
  | [] => []
  | [a] => [sextetChar (a / 4), sextetChar (a % 4 * 16), '=', '=']
  | [a, b] => [sextetChar (a / 4), sextetChar (a % 4 * 16 + b / 16),
               sextetChar (b % 16 * 4), '=']
  | a :: b :: c :: rest =>
      sextetChar (a / 4) :: sextetChar (a % 4 * 16 + b / 16) ::
      sextetChar (b % 16 * 4 + c / 64) :: sextetChar (c % 64) :: b64encode rest

/-- `base64.b64decode`: base64 text to bytes; `none` models the
`binascii.Error` exception on ill-formed input. -/
def b64decode : Str → Option (List Nat)
  | [] => some []
  | [_] => none
  | [_, _] => none
  | [_, _, _] => none
  | w :: x :: y :: z :: rest =>
      if y = '=' then
        if z = '=' ∧ rest = [] then
          some [charSextet w * 4 + charSextet x / 16]
        else none
      else if z = '=' then
        if rest = [] then
          some [charSextet w * 4 + charSextet x / 16,
                charSextet x % 16 * 16 + charSextet y / 4]
        else none
      else
        (b64decode rest).map (fun tl =>
          (charSextet w * 4 + charSextet x / 16) ::
          (charSextet x % 16 * 16 + charSextet y / 4) ::
          (charSextet y % 4 * 64 + charSextet z) :: tl)

theorem charSextet_sextetChar : ∀ n < 64, charSextet (sextetChar n) = n := by decide

theorem sextetChar_ne_pad : ∀ n < 64, sextetChar n ≠ '=' := by decide

theorem charSextet_lt (c : Char) : charSextet c < 64 := by
  unfold charSextet
  split_ifs <;> omega

theorem b64decode_b64encode : ∀ bs : List Nat, (∀ b ∈ bs, b < 256) →
    b64decode (b64encode bs) = some bs
  | [], _ => rfl
  | [a], h => by
      have ha : a < 256 := h a (by simp)
      have h1 : a / 4 < 64 := by omega
      have h2 : a % 4 * 16 < 64 := by omega
      simp only [b64encode, b64decode]
      simp only [and_self, if_true]
      rw [charSextet_sextetChar _ h1, charSextet_sextetChar _ h2]
      have e1 : a / 4 * 4 + a % 4 * 16 / 16 = a := by omega
      rw [e1]
  | [a, b], h => by
      have ha : a < 256 := h a (by simp)
      have hb : b < 256 := h b (by simp)
      have h1 : a / 4 < 64 := by omega
      have h2 : a % 4 * 16 + b / 16 < 64 := by omega
      have h3 : b % 16 * 4 < 64 := by omega
      simp only [b64encode, b64decode]
      rw [if_neg (sextetChar_ne_pad _ h3)]
      simp only [if_true]
      rw [charSextet_sextetChar _ h1, charSextet_sextetChar _ h2,
          charSextet_sextetChar _ h3]
      have e1 : a / 4 * 4 + (a % 4 * 16 + b / 16) / 16 = a := by omega
      have e2 : (a % 4 * 16 + b / 16) % 16 * 16 + b % 16 * 4 / 4 = b := by omega
      rw [e1, e2]
  | [a, b, c], h => by
      have ha : a < 256 := h a (by simp)
      have hb : b < 256 := h b (by simp)
      have hc : c < 256 := h c (by simp)
      have h1 : a / 4 < 64 := by omega
      have h2 : a % 4 * 16 + b / 16 < 64 := by omega
      have h3 : b % 16 * 4 + c / 64 < 64 := by omega
      have h4 : c % 64 < 64 := by omega
      simp only [b64encode, b64decode]
      rw [if_neg (sextetChar_ne_pad _ h3), if_neg (sextetChar_ne_pad _ h4)]
      simp only [b64decode, Option.map_some']
      rw [charSextet_sextetChar _ h1, charSextet_sextetChar _ h2,
          charSextet_sextetChar _ h3, charSextet_sextetChar _ h4]
      have e1 : a / 4 * 4 + (a % 4 * 16 + b / 16) / 16 = a := by omega
      have e2 : (a % 4 * 16 + b / 16) % 16 * 16 + (b % 16 * 4 + c / 64) / 4 = b := by omega
      have e3 : (b % 16 * 4 + c / 64) % 4 * 64 + c % 64 = c := by omega
      rw [e1, e2, e3]
  | a :: b :: c :: d :: rest, h => by
      have ha : a < 256 := h a (by simp)
      have hb : b < 256 := h b (by simp)
      have hc : c < 256 := h c (by simp)
      have ih : b64decode (b64encode (d :: rest)) = some (d :: rest) :=
        b64decode_b64encode (d :: rest) (fun x hx => h x (by simp at hx ⊢; tauto))
      have h1 : a / 4 < 64 := by omega
      have h2 : a % 4 * 16 + b / 16 < 64 := by omega
      have h3 : b % 16 * 4 + c / 64 < 64 := by omega
      have h4 : c % 64 < 64 := by omega
      have henc : b64encode (a :: b :: c :: d :: rest) =
          sextetChar (a / 4) :: sextetChar (a % 4 * 16 + b / 16) ::
          sextetChar (b % 16 * 4 + c / 64) :: sextetChar (c % 64) ::
          b64encode (d :: rest) := rfl
      rw [henc]
      have hne4 : b64encode (d :: rest) ≠ [] := by
        cases rest with
        | nil => simp [b64encode]
        | cons e rest2 =>
          cases rest2 with
          | nil => simp [b64encode]
          | cons f rest3 => simp [b64encode]
      cases hb4 : b64encode (d :: rest) with
      | nil => exact absurd hb4 hne4
      | cons u us =>
        show b64decode (sextetChar (a / 4) :: sextetChar (a % 4 * 16 + b / 16) ::
          sextetChar (b % 16 * 4 + c / 64) :: sextetChar (c % 64) :: u :: us) =
          some (a :: b :: c :: d :: rest)
        simp only [b64decode]
        rw [if_neg (sextetChar_ne_pad _ h3), if_neg (sextetChar_ne_pad _ h4)]
        rw [← hb4, ih]
        simp only [Option.map_some']
        rw [charSextet_sextetChar _ h1, charSextet_sextetChar _ h2,
            charSextet_sextetChar _ h3, charSextet_sextetChar _ h4]
        have e1 : a / 4 * 4 + (a % 4 * 16 + b / 16) / 16 = a := by omega
        have e2 : (a % 4 * 16 + b / 16) % 16 * 16 + (b % 16 * 4 + c / 64) / 4 = b := by omega
        have e3 : (b % 16 * 4 + c / 64) % 4 * 64 + c % 64 = c := by omega
        rw [e1, e2, e3]

theorem b64decode_bytes_lt : ∀ (s : Str) (bs : List Nat),
    b64decode s = some bs → ∀ b ∈ bs, b < 256
  | [], bs, h => by
      simp only [b64decode, Option.some.injEq] at h
      subst h
      simp
  | [w], bs, h => by simp [b64decode] at h
  | [w, x], bs, h => by simp [b64decode] at h
  | [w, x, y], bs, h => by simp [b64decode] at h
  | w :: x :: y :: z :: rest, bs, h => by
      have hw := charSextet_lt w
      have hx := charSextet_lt x
      have hy := charSextet_lt y
      have hz := charSextet_lt z
      simp only [b64decode] at h
      by_cases hyp : y = '='
      · rw [if_pos hyp] at h
        by_cases hzr : z = '=' ∧ rest = []
        · rw [if_pos hzr] at h
          injection h with h
          subst h
          intro b hb
          simp at hb
          omega
        · rw [if_neg hzr] at h
          cases h
      · rw [if_neg hyp] at h
        by_cases hzp : z = '='
        · rw [if_pos hzp] at h
          by_cases hr : rest = []
          · rw [if_pos hr] at h
            injection h with h
            subst h
            intro b hb
            simp at hb
            rcases hb with hb | hb <;> omega
          · rw [if_neg hr] at h
            cases h
        · rw [if_neg hzp] at h
          rcases Option.map_eq_some'.mp h with ⟨tl, htl, hbs⟩
          subst hbs
          intro b hb
          simp only [List.mem_cons] at hb
          rcases hb with hb | hb | hb | hb
          · omega
          · omega
          · omega
          · exact b64decode_bytes_lt rest tl htl b hb

/-! ### Data model: events on both channels, relay actions, pump state -/

/-- One content item inside a completed response (`response.output[0].content[]`). -/
structure ContentItem where
  itemType : Str
  transcript : Option Str
  deriving DecidableEq

/-- One output item of a completed response. -/
structure OutputItem where
  content : List ContentItem
  deriving DecidableEq

/-- The `response` body of a `response.done` event. -/
structure RespBody where
  output : List OutputItem
  deriving DecidableEq

/-- Parsed events arriving from the AI channel, as dispatched by `send_twilio`. -/
inductive AIEvent where
  | textDelta (delta : Str)
  | responseDone (response : Option RespBody)
  | audioDelta (delta : Str)
  | otherEvent
  deriving DecidableEq

/-- Parsed events arriving from the telephony channel, as dispatched by
`recv_twilio`. -/
inductive TwilioEvent where
  | start (streamSid : Str)
  | media (payload : Str)
  | otherEvent
  deriving DecidableEq

/-- Outbound effects of the AI→telephony pump: a `media` frame sent to the
telephony websocket, or one of the two hang-up requests issued through the
Twilio client. -/
inductive RelayAction where
  | sendMedia (streamSid : Option Str) (payload : Str)
  | hangupGraceful (callSid : Str)
  | markCompleted (callSid : Str)
  deriving DecidableEq

/-- Messages sent on the AI channel: the `session.update` handshake or an
`input_audio_buffer.append`. -/
inductive AIMsg where
  | sessionUpdate (turnDetectionType inputAudioFormat outputAudioFormat voice instructions : Str)
      (modalities : List Str) (temperature : ℚ)
  | appendAudio (audio : Str)
  deriving DecidableEq

/-- State mutated by `send_twilio` in `main.py`: the per-turn buffer
`current_response` and the session-wide `full_text`. -/
structure SendState where
  currentResponse : Str
  fullText : Str
  deriving DecidableEq

/-- The black-box Twilio call-control oracle: the status returned by
`twilio_client.calls(call_sid).fetch()`, or `none` when that call raises. -/
structure TwilioEnv where
  fetchResult : Option Str
  deriving DecidableEq

/-- Outcome of handling one AI event in `send_twilio`. -/
inductive StepRes where
  | next (st : SendState) (acts : List RelayAction)
  | halt (acts : List RelayAction)
  deriving DecidableEq

/-- How one pump run ended: its channel closed, the coroutine returned
(`return` / `break`), or an uncaught exception was raised. -/
inductive RunEnd where
  | channelClosed
  | returned
  | raised
  deriving DecidableEq

/-- The hang-up procedure of `main.py` (lines 151–167): with no `call_sid`
the hang-up is skipped; otherwise fetch the call status (any exception is
caught and yields no request), then either send the graceful
`<Pause/><Hangup/>` TwiML or fall back to marking the call completed. -/
def hangupActions (env : TwilioEnv) : Option Str → List RelayAction
  | none => []
  | some sid =>
      match env.fetchResult with
      | none => []
      | some status =>
          if status = ("in-progress").data then [RelayAction.hangupGraceful sid]
          else [RelayAction.markCompleted sid]

/-- The `for item in content_items` loop of `main.py` (lines 144–168):
find the first `audio` item carrying a transcript whose lowercased text
matches a closing phrase; `some acts` means the loop hung up (actions
`acts`) and returned, `none` means it fell through. -/
def scanTranscripts (env : TwilioEnv) (callSid : Option Str) :
    List ContentItem → Option (List RelayAction)
  | [] => none
  | item :: rest =>
      if item.itemType = ("audio").data then
        match item.transcript with
        | some t =>
            if is_goodbye_trigger (lowerStr t) then some (hangupActions env callSid)
            else scanTranscripts env callSid rest
        | none => scanTranscripts env callSid rest
      else scanTranscripts env callSid rest

/-- One iteration of the `while True` loop of `send_twilio` in `main.py`
(lines 129–187), dispatching on the event type. -/
def sendTwilioStep (env : TwilioEnv) (streamSid callSid : Option Str)
    (st : SendState) : AIEvent → StepRes
  | AIEvent.textDelta d =>
      StepRes.next ⟨st.currentResponse ++ lowerStr d, st.fullText ++ lowerStr d⟩ []
  | AIEvent.responseDone resp =>
      match (match resp with | some r => r.output | none => ([] : List OutputItem)) with
      | [] => StepRes.next ⟨[], st.fullText⟩ []
      | o :: _ =>
          match scanTranscripts env callSid o.content with
          | some acts => StepRes.halt acts
          | none => StepRes.next ⟨[], st.fullText⟩ []
  | AIEvent.audioDelta d =>
      if d = [] then StepRes.next st []
      else
        match b64decode d with
        | some bytes => StepRes.next st [RelayAction.sendMedia streamSid (b64encode bytes)]
        | none => StepRes.next st []
  | AIEvent.otherEvent => StepRes.next st []

/-- The whole `send_twilio` pump of `main.py`, folded over the frames read
from the AI channel. Each frame is paired with the value the shared
`stream_sid` has at that moment (it is written concurrently by
`recv_twilio`); `none` in the second component is an unparseable frame, on
which `json.loads` raises and kills the pump. -/
def runSendTwilio (env : TwilioEnv) (callSid : Option Str) :
    SendState → List (Option Str × Option AIEvent) → List RelayAction × RunEnd
  | _, [] => ([], RunEnd.channelClosed)
  | _, (_, none) :: _ => ([], RunEnd.raised)
  | st, (sid, some e) :: rest =>
      match sendTwilioStep env sid callSid st e with
      | StepRes.next st2 acts =>
          let r := runSendTwilio env callSid st2 rest
          (acts ++ r.1, r.2)
      | StepRes.halt acts => (acts, RunEnd.returned)

/-- Outcome of handling one AI event in the minimal variant `src/main.py`. -/
inductive StepResV where
  | nextV (fullText : Str) (acts : List RelayAction)
  | haltV (acts : List RelayAction)
  | raisedV
  deriving DecidableEq

/-- One iteration of the `while True` loop of `send_twilio` in the minimal
variant `src/main.py` (lines 97–121): the incremental check requires both
"goodbye" and "great day" in the accumulated text, hangs up by marking the
call completed, and `break`s; audio deltas are re-encoded with no
`try`/`except`, so a decode failure raises. -/
def sendTwilioStepV (callSid streamSid : Option Str) (fullText : Str) :
    AIEvent → StepResV
  | AIEvent.textDelta d =>
      let ft := fullText ++ lowerStr d
      if isSubstr ("goodbye").data ft && isSubstr ("great day").data ft then
        StepResV.haltV (match callSid with
          | some sid => [RelayAction.markCompleted sid]
          | none => [])
      else StepResV.nextV ft []
  | AIEvent.audioDelta d =>
      if d = [] then StepResV.nextV fullText []
      else
        match b64decode d with
        | some bytes => StepResV.nextV fullText [RelayAction.sendMedia streamSid (b64encode bytes)]
        | none => StepResV.raisedV
  | AIEvent.responseDone _ => StepResV.nextV fullText []
  | AIEvent.otherEvent => StepResV.nextV fullText []

/-- The whole `send_twilio` pump of the minimal variant `src/main.py`. -/
def runSendTwilioV (callSid : Option Str) :
    Str → List (Option Str × Option AIEvent) → List RelayAction × RunEnd
  | _, [] => ([], RunEnd.channelClosed)
  | _, (_, none) :: _ => ([], RunEnd.raised)
  | ft, (sid, some e) :: rest =>
      match sendTwilioStepV callSid sid ft e with
      | StepResV.nextV ft2 acts =>
          let r := runSendTwilioV callSid ft2 rest
          (acts ++ r.1, r.2)
      | StepResV.haltV acts => (acts, RunEnd.returned)
      | StepResV.raisedV => ([], RunEnd.raised)

/-- One iteration of `recv_twilio` (identical in both files): a `start`
event stores the stream sid, a `media` event forwards its payload verbatim
as an `input_audio_buffer.append`, anything else is ignored. -/
def recvTwilioStep (streamSid : Option Str) : TwilioEvent → Option Str × List AIMsg
  | TwilioEvent.start s => (some s, [])
  | TwilioEvent.media p => (streamSid, [AIMsg.appendAudio p])
  | TwilioEvent.otherEvent => (streamSid, [])

/-- The whole `recv_twilio` pump folded over telephony frames; `none` is an
unparseable frame, on which `json.loads` raises and kills the pump. -/
def runRecvTwilio : Option Str → List (Option TwilioEvent) →
    Option Str × List AIMsg × RunEnd
  | sid, [] => (sid, [], RunEnd.channelClosed)
  | sid, none :: _ => (sid, [], RunEnd.raised)
  | sid, some e :: rest =>
      let p := recvTwilioStep sid e
      let r := runRecvTwilio p.1 rest
      (r.1, p.2 ++ r.2.1, r.2.2)

/-! ### Session configuration handshake and the call-sid registry -/

/-- The `SYSTEM_MESSAGE` prompt from `main.py`. -/
def SYSTEM_MESSAGE : Str :=
  ( "You are Eve AI, the Concierge for Absolute Health Care.  \n"
  ++ "→ Always start with exactly: “Hello, I’m Eve AI from Absolute Health Care—how can I help you today?”  \n"
  ++ "\n"
  ++ "**About Absolute Health Care:**\n"
  ++ "- We provide comprehensive medical support and wellness services.  \n"
  ++ "- Office hours: Monday–Friday, 8 AM to 4 PM.  \n"
  ++ "- For medical emergencies, please hang up and dial 911 immediately.  \n"
  ++ "\n"
  ++ "**If asked anything outside your knowledge or scope:**\n"
  ++ "- Respond: “I’m not sure about that at the moment; let me transfer you to a human specialist.”  \n"
  ++ "\n"
  ++ "**Tone & style:**\n"
  ++ "- Keep all responses clear, concise, and professional.  \n"
  ++ "- End each answer with “How else may I assist you today?”" ).data

/-- `VOICE` from `main.py`. -/
def VOICE : Str := ("alloy").data

/-- The `session.update` message built by `send_session_update` in `main.py`
(lines 192–205). -/
def sessionUpdateMsg : AIMsg :=
  AIMsg.sessionUpdate ("server_vad").data ("g711_ulaw").data ("g711_ulaw").data
    VOICE SYSTEM_MESSAGE [("audio").data, ("text").data] (8 / 10 : ℚ)

/-- Is this AI-channel message the `session.update` handshake? -/
def isSessionUpdateMsg : AIMsg → Bool
  | AIMsg.sessionUpdate _ _ _ _ _ _ _ => true
  | AIMsg.appendAudio _ => false

/-- Every message `handle_media_stream` sends on the AI channel: the
handshake `await send_session_update(openai_ws)` first, then whatever the
`recv_twilio` pump forwards. -/
def session_ai_messages (frames : List (Option TwilioEvent)) : List AIMsg :=
  sessionUpdateMsg :: (runRecvTwilio none frames).2.1

/-- `call_sid_cache["last"] = call_sid` in `handle_incoming_call`:
last-write-wins on the single cache slot. -/
def register_call_sid (_cache : Option Str) (sid : Option Str) : Option Str := sid

/-- The cache contents after a sequence of incoming-call notifications. -/
def call_sid_cache_after (regs : List (Option Str)) : Option Str :=
  regs.foldl register_call_sid none

/-- Session-identifier resolution in `handle_media_stream` (lines 74–78):
keep the query-string candidate when truthy, otherwise fall back to the
cached identifier. -/
def resolve_call_sid (candidate : Option Str) (cache : Option Str) : Option Str :=
  match candidate with
  | some c => if c = [] then cache else some c
  | none => cache

/-! ### Counting hang-up requests -/

/-- Is this action one of the two hang-up requests (graceful TwiML or
mark-completed fallback)? -/
def isHangupAction : RelayAction → Bool
  | RelayAction.hangupGraceful _ => true
  | RelayAction.markCompleted _ => true
  | RelayAction.sendMedia _ _ => false

/-- Number of hang-up requests in an action trace. -/
def hangupCount (acts : List RelayAction) : Nat := acts.countP isHangupAction

theorem hangupActions_count_le_one (env : TwilioEnv) (cs : Option Str) :
    hangupCount (hangupActions env cs) ≤ 1 := by
  obtain ⟨fr⟩ := env
  cases cs with
  | none => simp [hangupActions, hangupCount]
  | some sid =>
    cases fr with
    | none => simp [hangupActions, hangupCount]
    | some status =>
      by_cases hs : status = ("in-progress").data <;>
        simp [hangupActions, hs, hangupCount, List.countP_cons, List.countP_nil,
          isHangupAction]

theorem scanTranscripts_some (env : TwilioEnv) (cs : Option Str) :
    ∀ (items : List ContentItem) (acts : List RelayAction),
      scanTranscripts env cs items = some acts → acts = hangupActions env cs := by
  intro items
  induction items with
  | nil => intro acts h; cases h
  | cons item rest ih =>
    intro acts h
    simp only [scanTranscripts] at h
    split at h
    · split at h
      · split at h
        · injection h with h
          exact h.symm
        · exact ih acts h
      · exact ih acts h
    · exact ih acts h

theorem sendTwilioStep_next_count (env : TwilioEnv) (sid cs : Option Str)
    (st : SendState) (e : AIEvent) (st2 : SendState) (acts : List RelayAction)
    (h : sendTwilioStep env sid cs st e = StepRes.next st2 acts) :
    hangupCount acts = 0 := by
  cases e with
  | textDelta d =>
    simp only [sendTwilioStep] at h
    injection h with _ h
    subst h
    rfl
  | responseDone resp =>
    simp only [sendTwilioStep] at h
    split at h
    · injection h with _ h
      subst h
      rfl
    · split at h
      · cases h
      · injection h with _ h
        subst h
        rfl
  | audioDelta d =>
    simp only [sendTwilioStep] at h
    split at h
    · injection h with _ h
      subst h
      rfl
    · split at h
      · injection h with _ h
        subst h
        rfl
      · injection h with _ h
        subst h
        rfl
  | otherEvent =>
    simp only [sendTwilioStep] at h
    injection h with _ h
    subst h
    rfl

theorem sendTwilioStep_halt_count (env : TwilioEnv) (sid cs : Option Str)
    (st : SendState) (e : AIEvent) (acts : List RelayAction)
    (h : sendTwilioStep env sid cs st e = StepRes.halt acts) :
    hangupCount acts ≤ 1 := by
  cases e with
  | textDelta d => simp only [sendTwilioStep] at h; cases h
  | responseDone resp =>
    simp only [sendTwilioStep] at h
    split at h
    · cases h
    · rename_i o tail heq
      split at h
      · rename_i acts2 hscan
        injection h with h
        subst h
        rw [scanTranscripts_some env cs o.content acts2 hscan]
        exact hangupActions_count_le_one env cs
      · cases h
  | audioDelta d =>
    simp only [sendTwilioStep] at h
    split at h
    · cases h
    · split at h
      · cases h
      · cases h
  | otherEvent => simp only [sendTwilioStep] at h; cases h

theorem sendTwilioStepV_next_count (cs sid : Option Str) (ft : Str) (e : AIEvent)
    (ft2 : Str) (acts : List RelayAction)
    (h : sendTwilioStepV cs sid ft e = StepResV.nextV ft2 acts) :
    hangupCount acts = 0 := by
  cases e with
  | textDelta d =>
    simp only [sendTwilioStepV] at h
    split at h
    · cases h
    · injection h with _ h
      subst h
      rfl
  | responseDone resp =>
    simp only [sendTwilioStepV] at h
    injection h with _ h
    subst h
    rfl
  | audioDelta d =>
    simp only [sendTwilioStepV] at h
    split at h
    · injection h with _ h
      subst h
      rfl
    · split at h
      · injection h with _ h
        subst h
        rfl
      · cases h
  | otherEvent =>
    simp only [sendTwilioStepV] at h
    injection h with _ h
    subst h
    rfl

theorem sendTwilioStepV_halt_count (cs sid : Option Str) (ft : Str) (e : AIEvent)
    (acts : List RelayAction)
    (h : sendTwilioStepV cs sid ft e = StepResV.haltV acts) :
    hangupCount acts ≤ 1 := by
  cases e with
  | textDelta d =>
    simp only [sendTwilioStepV] at h
    split at h
    · injection h with h
      subst h
      cases cs <;>
        simp [hangupCount, List.countP_cons, List.countP_nil, isHangupAction]
    · cases h
  | responseDone resp => simp only [sendTwilioStepV] at h; cases h
  | audioDelta d =>
    simp only [sendTwilioStepV] at h
    split at h
    · cases h
    · split at h
      · cases h
      · cases h
  | otherEvent => simp only [sendTwilioStepV] at h; cases h

theorem runSendTwilio_count (env : TwilioEnv) (cs : Option Str) :
    ∀ (frames : List (Option Str × Option AIEvent)) (st : SendState),
      hangupCount (runSendTwilio env cs st frames).1 ≤ 1 := by
  intro frames
  induction frames with
  | nil => intro st; simp [runSendTwilio, hangupCount]
  | cons f rest ih =>
    intro st
    obtain ⟨sid, oe⟩ := f
    cases oe with
    | none => simp [runSendTwilio, hangupCount]
    | some e =>
      simp only [runSendTwilio]
      cases hstep : sendTwilioStep env sid cs st e with
      | next st2 acts =>
        simp only [hangupCount, List.countP_append]
        have h0 := sendTwilioStep_next_count env sid cs st e st2 acts hstep
        have h1 := ih st2
        simp only [hangupCount] at h0 h1
        omega
      | halt acts =>
        exact sendTwilioStep_halt_count env sid cs st e acts hstep

theorem runSendTwilioV_count (cs : Option Str) :
    ∀ (frames : List (Option Str × Option AIEvent)) (ft : Str),
      hangupCount (runSendTwilioV cs ft frames).1 ≤ 1 := by
  intro frames
  induction frames with
  | nil => intro ft; simp [runSendTwilioV, hangupCount]
  | cons f rest ih =>
    intro ft
    obtain ⟨sid, oe⟩ := f
    cases oe with
    | none => simp [runSendTwilioV, hangupCount]
    | some e =>
      simp only [runSendTwilioV]
      cases hstep : sendTwilioStepV cs sid ft e with
      | nextV ft2 acts =>
        simp only [hangupCount, List.countP_append]
        have h0 := sendTwilioStepV_next_count cs sid ft e ft2 acts hstep
        have h1 := ih ft2
        simp only [hangupCount] at h0 h1
        omega
      | haltV acts =>
        exact sendTwilioStepV_halt_count cs sid ft e acts hstep
      | raisedV => simp [hangupCount]

theorem runRecvTwilio_no_sessionUpdate :
    ∀ (frames : List (Option TwilioEvent)) (sid : Option Str),
      ∀ m ∈ (runRecvTwilio sid frames).2.1, isSessionUpdateMsg m = false := by
  intro frames
  induction frames with
  | nil => intro sid m hm; simp [runRecvTwilio] at hm
  | cons f rest ih =>
    intro sid m hm
    cases f with
    | none => simp [runRecvTwilio] at hm
    | some e =>
      simp only [runRecvTwilio, List.mem_append] at hm
      rcases hm with hm | hm
      · cases e <;> simp [recvTwilioStep] at hm
        subst hm
        rfl
      · exact ih (recvTwilioStep sid e).1 m hm

theorem runRecvTwilio_parseable_raise :
    ∀ (pfx : List (Option TwilioEvent)) (sid : Option Str)
      (rest : List (Option TwilioEvent)),
      (∀ f ∈ pfx, f ≠ none) →
      (runRecvTwilio sid (pfx ++ none :: rest)).2.2 = RunEnd.raised ∧
      (runRecvTwilio sid (pfx ++ none :: rest)).2.1 = (runRecvTwilio sid pfx).2.1 := by
  intro pfx
  induction pfx with
  | nil =>
    intro sid rest _
    exact ⟨rfl, rfl⟩
  | cons f p ih =>
    intro sid rest hall
    cases f with
    | none => exact absurd rfl (hall none (by simp))
    | some e =>
      have hp : ∀ g ∈ p, g ≠ none := fun g hg => hall g (by simp [hg])
      have := ih (recvTwilioStep sid e).1 rest hp
      simp only [List.cons_append, runRecvTwilio]
      refine ⟨this.1, ?_⟩
      simp only [List.append_eq]
      rw [this.2]

theorem scanTranscripts_eq_none (env : TwilioEnv) (cs : Option Str) :
    ∀ items : List ContentItem,
      (∀ item ∈ items, item.itemType ≠ ("audio").data ∨ item.transcript = none) →
      scanTranscripts env cs items = none := by
  intro items
  induction items with
  | nil => intro _; rfl
  | cons item rest ih =>
    intro hall
    have hrest : scanTranscripts env cs rest = none :=
      ih (fun it hit => hall it (by simp [hit]))
    have hit := hall item (by simp)
    simp only [scanTranscripts]
    rcases hit with hty | htr
    · rw [if_neg hty]
      exact hrest
    · by_cases hty : item.itemType = ("audio").data
      · rw [if_pos hty, htr]
        exact hrest
      · rw [if_neg hty]
        exact hrest

/-! ### Claim theorems -/

/-- Claim C1: for every call session and every sequence of AI events, the
hang-up capability (graceful pause-and-hangup TwiML or mark-completed
fallback) is invoked at most once per session — in the primary pump, which
hangs up only from the final-transcript path and then returns, and in the
minimal variant, which hangs up from the incremental path and then breaks —
however many times closing phrases match. -/
theorem hangup_invoked_at_most_once :
    (∀ (env : TwilioEnv) (callSid : Option Str) (st : SendState)
       (frames : List (Option Str × Option AIEvent)),
       hangupCount (runSendTwilio env callSid st frames).1 ≤ 1) ∧
    (∀ (callSid : Option Str) (fullText : Str)
       (frames : List (Option Str × Option AIEvent)),
       hangupCount (runSendTwilioV callSid fullText frames).1 ≤ 1) :=
  ⟨fun env cs st frames => runSendTwilio_count env cs frames st,
   fun cs ft frames => runSendTwilioV_count cs frames ft⟩

/-- Claim C2: audio is relayed byte-for-byte in both directions. A telephony
`media` payload is forwarded verbatim in the `input_audio_buffer.append`
message, and an AI `response.audio.delta` payload is sent to telephony as
the re-encoding of its decoded bytes, whose decoding recovers exactly the
decoded source payload. -/
theorem audio_relayed_byte_for_byte :
    (∀ (sid : Option Str) (p : Str),
       recvTwilioStep sid (TwilioEvent.media p) = (sid, [AIMsg.appendAudio p])) ∧
    (∀ (env : TwilioEnv) (sid cs : Option Str) (st : SendState) (d : Str)
       (bytes : List Nat), d ≠ [] → b64decode d = some bytes →
       sendTwilioStep env sid cs st (AIEvent.audioDelta d) =
         StepRes.next st [RelayAction.sendMedia sid (b64encode bytes)] ∧
       b64decode (b64encode bytes) = some bytes) := by
  constructor
  · intro sid p
    rfl
  · intro env sid cs st d bytes hd hbd
    constructor
    · simp only [sendTwilioStep]
      rw [if_neg hd, hbd]
    · exact b64decode_b64encode bytes (b64decode_bytes_lt d bytes hbd)

/-- Claim C2 witness: concrete instance for payload "AAAA" inbound and the
base64 delta "QUJD" (bytes 65,66,67) outbound. -/
theorem audio_relayed_byte_for_byte_witness :
    ("QUJD").data ≠ [] ∧ b64decode ("QUJD").data = some [65, 66, 67] ∧
    recvTwilioStep (some ("MZ1").data) (TwilioEvent.media ("AAAA").data) =
      (some ("MZ1").data, [AIMsg.appendAudio ("AAAA").data]) ∧
    (sendTwilioStep ⟨some ("in-progress").data⟩ (some ("MZ1").data)
        (some ("CA1").data) ⟨[], []⟩ (AIEvent.audioDelta ("QUJD").data) =
      StepRes.next ⟨[], []⟩
        [RelayAction.sendMedia (some ("MZ1").data) (b64encode [65, 66, 67])] ∧
      b64decode (b64encode [65, 66, 67]) = some [65, 66, 67]) :=
  ⟨by decide, by decide,
   audio_relayed_byte_for_byte.1 (some ("MZ1").data) ("AAAA").data,
   audio_relayed_byte_for_byte.2 ⟨some ("in-progress").data⟩ (some ("MZ1").data)
     (some ("CA1").data) ⟨[], []⟩ ("QUJD").data [65, 66, 67]
     (by decide) (by decide)⟩

/-- Claim C3 counterexample: the claim asserts that text containing
"goodbyeee" without an exact trigger phrase does not trigger hang-up, but
"goodbye" is itself a trigger phrase and a substring of "goodbyeee", so the
detector matches. -/
theorem goodbyeee_matches_counterexample :
    is_goodbye_trigger ("goodbyeee").data = true := by decide

/-- Claim C3 (amended): the closing-phrase check is case-insensitive and
substring-based — it matches iff some trigger phrase is a substring of the
lowercased, trimmed text; text containing "thank you and goodbye" triggers
hang-up, and text containing "goodbyeee" also triggers it, because the
trigger phrase "goodbye" is a substring of it. -/
theorem goodbye_trigger_characterization :
    (∀ text : Str, is_goodbye_trigger text = true ↔
       ∃ t ∈ GOODBYE_TRIGGERS, SubstrOf t (trimStr (lowerStr text))) ∧
    is_goodbye_trigger ("Well, THANK YOU AND GOODBYE everyone").data = true ∧
    is_goodbye_trigger ("goodbyeee").data = true := by
  refine ⟨?_, by decide, by decide⟩
  intro text
  simp only [is_goodbye_trigger, List.any_eq_true]
  constructor
  · rintro ⟨t, ht, hsub⟩
    exact ⟨t, ht, (isSubstr_iff t _).mp hsub⟩
  · rintro ⟨t, ht, hsub⟩
    exact ⟨t, ht, (isSubstr_iff t _).mpr hsub⟩

/-- Claim C4 counterexample: a single `response.text.delta` with delta
"have a great day" does not invoke the hang-up capability and does not
terminate either pump — the primary pump performs no incremental check at
all, and the variant's incremental check also requires "goodbye". -/
theorem great_day_delta_no_hangup_counterexample :
    runSendTwilio ⟨some ("in-progress").data⟩ (some ("CA1").data) ⟨[], []⟩
        [(some ("MZ1").data, some (AIEvent.textDelta ("have a great day").data))] =
      ([], RunEnd.channelClosed) ∧
    runSendTwilioV (some ("CA1").data) []
        [(some ("MZ1").data, some (AIEvent.textDelta ("have a great day").data))] =
      ([], RunEnd.channelClosed) :=
  ⟨by decide, by decide⟩

/-- Claim C4 (amended): every `response.text.delta` appends the lowercased
delta to the accumulated response text; in the primary implementation the
text-delta path performs no closing-phrase check and never hangs up or
halts, and in the minimal variant the incremental check requires "goodbye"
in the accumulated text, so a delta without it leaves the pump running. -/
theorem text_delta_appends_without_hangup :
    (∀ (env : TwilioEnv) (sid cs : Option Str) (st : SendState) (d : Str),
       sendTwilioStep env sid cs st (AIEvent.textDelta d) =
         StepRes.next ⟨st.currentResponse ++ lowerStr d, st.fullText ++ lowerStr d⟩ []) ∧
    (∀ (cs sid : Option Str) (ft d : Str),
       isSubstr ("goodbye").data (ft ++ lowerStr d) = false →
       sendTwilioStepV cs sid ft (AIEvent.textDelta d) =
         StepResV.nextV (ft ++ lowerStr d) []) := by
  constructor
  · intro env sid cs st d
    rfl
  · intro cs sid ft d hng
    simp [sendTwilioStepV, hng]

/-- Claim C4 witness: concrete instance at delta "Have a great day". -/
theorem text_delta_appends_without_hangup_witness :
    isSubstr ("goodbye").data ([] ++ lowerStr ("Have a great day").data) = false ∧
    sendTwilioStep ⟨some ("in-progress").data⟩ (some ("MZ1").data)
        (some ("CA1").data) ⟨[], []⟩ (AIEvent.textDelta ("Have a great day").data) =
      StepRes.next ⟨[] ++ lowerStr ("Have a great day").data,
        [] ++ lowerStr ("Have a great day").data⟩ [] ∧
    sendTwilioStepV (some ("CA1").data) (some ("MZ1").data) []
        (AIEvent.textDelta ("Have a great day").data) =
      StepResV.nextV ([] ++ lowerStr ("Have a great day").data) [] :=
  ⟨by decide,
   text_delta_appends_without_hangup.1 ⟨some ("in-progress").data⟩
     (some ("MZ1").data) (some ("CA1").data) ⟨[], []⟩ ("Have a great day").data,
   text_delta_appends_without_hangup.2 (some ("CA1").data) (some ("MZ1").data) []
     ("Have a great day").data (by decide)⟩

/-- Claim C5 counterexample: an audio delta arriving while `stream_sid` is
still unset is not dropped — it is forwarded to telephony as a `media`
frame whose stream handle is null, and no warning is emitted. -/
theorem audio_before_start_forwarded_counterexample :
    sendTwilioStep ⟨some ("in-progress").data⟩ none (some ("CA1").data) ⟨[], []⟩
        (AIEvent.audioDelta ("QUJD").data) =
      StepRes.next ⟨[], []⟩ [RelayAction.sendMedia none ("QUJD").data] := by
  decide

/-- Claim C5 (amended): an audio delta arriving before any start event has
set the stream handle is forwarded to telephony with a null stream handle
(the pump does not crash: send errors are caught); it is not dropped and no
warning is emitted. -/
theorem audio_before_start_forwarded_null_handle :
    ∀ (env : TwilioEnv) (cs : Option Str) (st : SendState) (d : Str)
      (bytes : List Nat), d ≠ [] → b64decode d = some bytes →
      sendTwilioStep env none cs st (AIEvent.audioDelta d) =
        StepRes.next st [RelayAction.sendMedia none (b64encode bytes)] := by
  intro env cs st d bytes hd hbd
  simp only [sendTwilioStep]
  rw [if_neg hd, hbd]

/-- Claim C5 witness: concrete instance at the base64 delta "aGk="
(bytes 104,105). -/
theorem audio_before_start_forwarded_null_handle_witness :
    ("aGk=").data ≠ [] ∧ b64decode ("aGk=").data = some [104, 105] ∧
    sendTwilioStep ⟨some ("in-progress").data⟩ none (some ("CA1").data) ⟨[], []⟩
        (AIEvent.audioDelta ("aGk=").data) =
      StepRes.next ⟨[], []⟩ [RelayAction.sendMedia none (b64encode [104, 105])] :=
  ⟨by decide, by decide,
   audio_before_start_forwarded_null_handle ⟨some ("in-progress").data⟩
     (some ("CA1").data) ⟨[], []⟩ ("aGk=").data [104, 105] (by decide) (by decide)⟩

/-- Claim C6 counterexample: an unparseable frame is not skipped — the pump
terminates with an uncaught exception and the following `media` event is
never forwarded. -/
theorem malformed_frame_counterexample :
    runRecvTwilio none [none, some (TwilioEvent.media ("AAAA").data)] =
      (none, [], RunEnd.raised) := by decide

/-- Claim C6 (amended): an unparseable frame on either channel raises an
uncaught exception that terminates the owning pump: everything before the
bad frame is processed, nothing after it is, and the pump ends raised
rather than skipping the event. -/
theorem malformed_frame_terminates_pump :
    (∀ (pfx : List (Option TwilioEvent)) (sid : Option Str)
       (rest : List (Option TwilioEvent)), (∀ f ∈ pfx, f ≠ none) →
       (runRecvTwilio sid (pfx ++ none :: rest)).2.2 = RunEnd.raised ∧
       (runRecvTwilio sid (pfx ++ none :: rest)).2.1 = (runRecvTwilio sid pfx).2.1) ∧
    (∀ (env : TwilioEnv) (cs sid : Option Str) (st : SendState)
       (rest : List (Option Str × Option AIEvent)),
       runSendTwilio env cs st ((sid, none) :: rest) = ([], RunEnd.raised)) :=
  ⟨runRecvTwilio_parseable_raise, fun _ _ _ _ _ => rfl⟩

/-- Claim C6 witness: one good `start` frame, then a malformed frame, then a
`media` frame that is never processed. -/
theorem malformed_frame_terminates_pump_witness :
    (runRecvTwilio none ([some (TwilioEvent.start ("MZ1").data)] ++ none ::
        [some (TwilioEvent.media ("AAAA").data)])).2.2 = RunEnd.raised ∧
    (runRecvTwilio none ([some (TwilioEvent.start ("MZ1").data)] ++ none ::
        [some (TwilioEvent.media ("AAAA").data)])).2.1 =
      (runRecvTwilio none [some (TwilioEvent.start ("MZ1").data)]).2.1 :=
  malformed_frame_terminates_pump.1 [some (TwilioEvent.start ("MZ1").data)] none
    [some (TwilioEvent.media ("AAAA").data)] (by decide)

/-- Claim C7 counterexample: when no session identifier is resolvable and a
closing phrase matches, the hang-up is indeed skipped (no hang-up action),
but the pump returns instead of keeping the audio relay running. -/
theorem missing_sid_counterexample :
    sendTwilioStep ⟨some ("in-progress").data⟩ none none ⟨[], []⟩
        (AIEvent.responseDone
          (some ⟨[⟨[⟨("audio").data, some ("goodbye").data⟩]⟩]⟩)) =
      StepRes.halt [] := by decide

/-- Claim C7 (amended): if no session identifier is resolvable when a
closing phrase matches, the hang-up is skipped with a diagnostic and no
hang-up action is issued, but the AI→telephony pump then returns, ending
the session, rather than keeping the relay running. -/
theorem missing_sid_skips_hangup_and_returns :
    (∀ env : TwilioEnv, hangupActions env none = []) ∧
    (∀ (env : TwilioEnv) (sid : Option Str) (st : SendState) (r : RespBody)
       (o : OutputItem) (os : List OutputItem),
       r.output = o :: os → scanTranscripts env none o.content ≠ none →
       sendTwilioStep env sid none st (AIEvent.responseDone (some r)) =
         StepRes.halt []) := by
  constructor
  · intro env
    rfl
  · intro env sid st r o os hout hscan
    have hred : sendTwilioStep env sid none st (AIEvent.responseDone (some r)) =
        (match r.output with
         | [] => StepRes.next ⟨[], st.fullText⟩ []
         | o :: _ =>
             match scanTranscripts env none o.content with
             | some acts => StepRes.halt acts
             | none => StepRes.next ⟨[], st.fullText⟩ []) := rfl
    rw [hred, hout]
    show (match scanTranscripts env none o.content with
          | some acts => StepRes.halt acts
          | none => StepRes.next ⟨[], st.fullText⟩ []) = StepRes.halt []
    cases hs : scanTranscripts env none o.content with
    | none => exact absurd hs hscan
    | some acts =>
      show StepRes.halt acts = StepRes.halt []
      rw [scanTranscripts_some env none o.content acts hs]
      rfl

/-- Claim C7 witness: concrete response whose transcript "goodbye" matches
while the session identifier is missing. -/
theorem missing_sid_skips_hangup_and_returns_witness :
    (⟨[⟨[⟨("audio").data, some ("goodbye").data⟩]⟩]⟩ : RespBody).output =
      ⟨[⟨("audio").data, some ("goodbye").data⟩]⟩ :: [] ∧
    scanTranscripts ⟨some ("in-progress").data⟩ none
      (⟨[⟨("audio").data, some ("goodbye").data⟩]⟩ : OutputItem).content ≠ none ∧
    sendTwilioStep ⟨some ("in-progress").data⟩ (some ("MZ1").data) none ⟨[], []⟩
        (AIEvent.responseDone
          (some ⟨[⟨[⟨("audio").data, some ("goodbye").data⟩]⟩]⟩)) =
      StepRes.halt [] :=
  ⟨rfl, by decide,
   missing_sid_skips_hangup_and_returns.2 ⟨some ("in-progress").data⟩
     (some ("MZ1").data) ⟨[], []⟩ ⟨[⟨[⟨("audio").data, some ("goodbye").data⟩]⟩]⟩
     ⟨[⟨("audio").data, some ("goodbye").data⟩]⟩ [] rfl (by decide)⟩

/-- Claim C8: exactly one session-configuration message — declaring
server-side voice-activity turn detection, g711_ulaw input and output
encodings, the voice, the fixed system-prompt instructions, the audio and
text modalities, and temperature 0.8 — is sent on the AI channel, and it
precedes every audio append forwarded to that channel. -/
theorem session_config_once_before_audio :
    ∀ frames : List (Option TwilioEvent),
      session_ai_messages frames =
        AIMsg.sessionUpdate ("server_vad").data ("g711_ulaw").data
          ("g711_ulaw").data VOICE SYSTEM_MESSAGE
          [("audio").data, ("text").data] (8 / 10 : ℚ) ::
          (runRecvTwilio none frames).2.1 ∧
      (session_ai_messages frames).countP isSessionUpdateMsg = 1 ∧
      ∀ m ∈ (runRecvTwilio none frames).2.1, isSessionUpdateMsg m = false := by
  intro frames
  refine ⟨rfl, ?_, runRecvTwilio_no_sessionUpdate frames none⟩
  simp only [session_ai_messages, List.countP_cons]
  have h0 : (runRecvTwilio none frames).2.1.countP isSessionUpdateMsg = 0 :=
    List.countP_eq_zero.mpr (by
      intro m hm
      simp [runRecvTwilio_no_sessionUpdate frames none m hm])
  rw [h0]
  rfl

/-- Claim C9: `register` stores the most recently started call's
identifier (last write wins on the single cache slot), and `resolve`
returns the candidate identifier whenever it is non-empty and otherwise
falls back to the last registered identifier. -/
theorem registry_register_resolve :
    (∀ (regs : List (Option Str)) (sid : Option Str),
       call_sid_cache_after (regs ++ [sid]) = sid) ∧
    (∀ (c : Str) (cache : Option Str), c ≠ [] →
       resolve_call_sid (some c) cache = some c) ∧
    (∀ cache : Option Str, resolve_call_sid none cache = cache ∧
       resolve_call_sid (some []) cache = cache) := by
  refine ⟨?_, ?_, ?_⟩
  · intro regs sid
    simp [call_sid_cache_after, List.foldl_append, register_call_sid]
  · intro c cache hc
    simp [resolve_call_sid, hc]
  · intro cache
    exact ⟨rfl, by simp [resolve_call_sid]⟩

/-- Claim C9 witness: concrete registrations and resolutions. -/
theorem registry_register_resolve_witness :
    call_sid_cache_after ([some ("CA1").data] ++ [some ("CA2").data]) =
      some ("CA2").data ∧
    resolve_call_sid (some ("CA9").data) (some ("CA2").data) =
      some ("CA9").data ∧
    resolve_call_sid none (some ("CA2").data) = some ("CA2").data :=
  ⟨registry_register_resolve.1 [some ("CA1").data] (some ("CA2").data),
   registry_register_resolve.2.1 ("CA9").data (some ("CA2").data) (by decide),
   (registry_register_resolve.2.2 (some ("CA2").data)).1⟩

/-- Claim C10: a `response.done` event whose body lacks a response, has an
empty output list, or has content items with no audio transcript, never
raises out of the pump: the failed extraction is caught, the per-turn
buffer is reset to empty, and the pump continues with the next event. -/
theorem response_done_malformed_safe :
    ∀ (env : TwilioEnv) (sid cs : Option Str) (st : SendState)
      (resp : Option RespBody),
      (resp = none ∨ (∃ r, resp = some r ∧ r.output = []) ∨
        (∃ r o os, resp = some r ∧ r.output = o :: os ∧
          ∀ item ∈ o.content,
            item.itemType ≠ ("audio").data ∨ item.transcript = none)) →
      sendTwilioStep env sid cs st (AIEvent.responseDone resp) =
        StepRes.next ⟨[], st.fullText⟩ [] := by
  intro env sid cs st resp hcase
  rcases hcase with rfl | ⟨r, rfl, hout⟩ | ⟨r, o, os, rfl, hout, hitems⟩
  · rfl
  · have hred : sendTwilioStep env sid cs st (AIEvent.responseDone (some r)) =
        (match r.output with
         | [] => StepRes.next ⟨[], st.fullText⟩ []
         | o :: _ =>
             match scanTranscripts env cs o.content with
             | some acts => StepRes.halt acts
             | none => StepRes.next ⟨[], st.fullText⟩ []) := rfl
    rw [hred, hout]
  · have hred : sendTwilioStep env sid cs st (AIEvent.responseDone (some r)) =
        (match r.output with
         | [] => StepRes.next ⟨[], st.fullText⟩ []
         | o :: _ =>
             match scanTranscripts env cs o.content with
             | some acts => StepRes.halt acts
             | none => StepRes.next ⟨[], st.fullText⟩ []) := rfl
    rw [hred, hout]
    show (match scanTranscripts env cs o.content with
          | some acts => StepRes.halt acts
          | none => StepRes.next ⟨[], st.fullText⟩ []) =
        StepRes.next ⟨[], st.fullText⟩ []
    rw [scanTranscripts_eq_none env cs o.content hitems]

/-- Claim C10 witness: a `response.done` with an empty output list resets
the per-turn buffer and continues. -/
theorem response_done_malformed_safe_witness :
    sendTwilioStep ⟨some ("in-progress").data⟩ none none ⟨("x").data, ("y").data⟩
        (AIEvent.responseDone (some ⟨[]⟩)) =
      StepRes.next ⟨[], ("y").data⟩ [] :=
  response_done_malformed_safe ⟨some ("in-progress").data⟩ none none
    ⟨("x").data, ("y").data⟩ (some ⟨[]⟩)
    (Or.inr (Or.inl ⟨⟨[]⟩, rfl, rfl⟩))
